import Mathlib

/-!
Verification of the generative-fractals rendering core.

This file gives a shallow embedding, in Lean 4, of the parts of the
repository that the frozen claims talk about:

* `rendering/parallel.py` (kimi variant): `compute_row_wrapper`,
  `compute_fractal_parallel`, `compute_fractal_sequential`.  Floating-point
  coordinates are modelled as exact rationals; the nondeterministic order in
  which `imap_unordered` yields finished rows is modelled as an explicit
  `completionOrder` list (a permutation of the row indices), and the
  periodically polled cancellation callback as a function from the number of
  checks performed so far to `Bool`.
* `fractal_explorer.py` (kimi variant): the per-fractal undo/redo history
  (`_push_current_state`, `go_back`, `go_forward`).
* `fractals/__init__.py` (kimi variant): the fractal registry and `create`.
* `fractals/mandelbrot.py` (kimi) and `fractal_generator/fractals.py`
  (opus variant): the per-pixel Mandelbrot iterations.  The smooth-coloring
  branch uses `Real.log`, so that function lives over `ℝ`.
* `fractals/newton.py` (kimi variant): the Newton fractal iteration.
* `navigation/__init__.py` (glm variant): `pixel_to_complex` and
  `complex_to_pixel` of `ZoomController`.
-/

namespace GenFractals

/-- An RGB triple as produced by `palette.get_color` (uint8 components,
modelled as naturals). -/
abbrev Color := ℕ × ℕ × ℕ

/-- One image row (list of RGB pixels). -/
abbrev Row := List Color

/-- An image: a list of rows. -/
abbrev Image := List Row

/-- Viewport bounds dictionary (`xmin`, `xmax`, `ymin`, `ymax`). -/
structure Bounds where
  xmin : ℚ
  xmax : ℚ
  ymin : ℚ
  ymax : ℚ

/-- The value of `np.linspace(a, b, n)` at index `i`: `n` evenly spaced
samples from `a` to `b` inclusive (for `n ≤ 1` the single sample is `a`). -/
def linspaceVal (a b : ℚ) (n i : ℕ) : ℚ :=
  if n ≤ 1 then a else a + (b - a) * i / (n - 1)

/-- `np.linspace(a, b, n)` as a list. -/
def linspace (a b : ℚ) (n : ℕ) : List ℚ :=
  (List.range n).map (linspaceVal a b n)

/-- `compute_row_wrapper` from `rendering/parallel.py`: computes one row of
pixels.  The worker re-creates the fractal and the palette from the two
registries; if either construction fails, the wrapper returns a zero-filled
row of the same width (the `except` branch).  The registries are modelled as
lookup functions returning the instance's `compute_pixel` resp. `get_color`
(over an arbitrary iteration-value type `V`). -/
def compute_row_wrapper {V : Type}
    (lookupFractal : String → Option (ℚ → ℚ → ℕ → V))
    (lookupPalette : String → Option (V → ℕ → Color))
    (fractalName paletteName : String)
    (xCoords : List ℚ) (yCoord : ℚ) (maxIter : ℕ) (rowIdx : ℕ) : ℕ × Row :=
  match lookupFractal fractalName, lookupPalette paletteName with
  | some computePixel, some getColor =>
      (rowIdx, xCoords.map (fun x => getColor (computePixel x yCoord maxIter) maxIter))
  | _, _ => (rowIdx, List.replicate xCoords.length (0, 0, 0))

/-- The result-merging loop of `compute_fractal_parallel`: rows arrive as
`(row_idx, row_data)` pairs in completion order; before merging each pair the
cancellation callback is polled (its argument counts the polls so far), and a
positive answer aborts the render with `none`.  Otherwise the row is written
at its index into the output array. -/
def mergeLoop (cancelCheck : ℕ → Bool) :
    List (ℕ × Row) → ℕ → Image → Option Image
  | [], _, img => some img
  | (rowIdx, rowData) :: rest, k, img =>
    if cancelCheck k then none
    else mergeLoop cancelCheck rest (k + 1) (img.set rowIdx rowData)

/-- `compute_fractal_parallel` from `rendering/parallel.py`.  The `x` array is
`linspace(xmin, xmax, width)`; row `i` is computed at
`y_coord = y[height - 1 - i]` (y is flipped).  `numWorkers` only sizes the
process pool; `completionOrder` is the order in which `imap_unordered`
delivers finished rows.  Returns `none` when cancelled. -/
def compute_fractal_parallel {V : Type}
    (lookupFractal : String → Option (ℚ → ℚ → ℕ → V))
    (lookupPalette : String → Option (V → ℕ → Color))
    (width height : ℕ) (bounds : Bounds)
    (fractalName : String) (maxIter : ℕ) (paletteName : String)
    (numWorkers : ℕ) (completionOrder : List ℕ)
    (cancelCheck : ℕ → Bool) : Option Image :=
  let xs := linspace bounds.xmin bounds.xmax width
  let rowOf : ℕ → ℕ × Row := fun i =>
    compute_row_wrapper lookupFractal lookupPalette fractalName paletteName
      xs (linspaceVal bounds.ymin bounds.ymax height (height - 1 - i)) maxIter i
  mergeLoop cancelCheck (completionOrder.map rowOf) 0
    (List.replicate height (List.replicate width (0, 0, 0)))

/-- The row loop of `compute_fractal_sequential`: rows are produced in
index order `0, 1, …`; the cancellation callback is polled once at the top of
each row iteration.  `fuel` is the number of rows still to produce. -/
def seqLoop (rowOf : ℕ → Row) (cancelCheck : ℕ → Bool) :
    ℕ → ℕ → Image → Option Image
  | 0, _, img => some img
  | fuel + 1, i, img =>
    if cancelCheck i then none
    else seqLoop rowOf cancelCheck fuel (i + 1) (img.set i (rowOf i))

/-- `compute_fractal_sequential` from `rendering/parallel.py` (the fallback
path): takes the per-pixel compute and color functions directly and fills the
image row by row, top row first, with the same flipped `y` coordinate as the
parallel path. -/
def compute_fractal_sequential {V : Type}
    (width height : ℕ) (bounds : Bounds)
    (fractal_compute : ℚ → ℚ → ℕ → V) (maxIter : ℕ)
    (palette_get_color : V → ℕ → Color)
    (cancelCheck : ℕ → Bool) : Option Image :=
  let xs := linspace bounds.xmin bounds.xmax width
  seqLoop
    (fun i => xs.map (fun x =>
      palette_get_color
        (fractal_compute x (linspaceVal bounds.ymin bounds.ymax height (height - 1 - i)) maxIter)
        maxIter))
    cancelCheck height 0
    (List.replicate height (List.replicate width (0, 0, 0)))

/-- Folding a list of row indices into an image, writing row `f i` at
index `i` for each listed index. -/
def mergeFold (f : ℕ → Row) (order : List ℕ) (img : Image) : Image :=
  order.foldl (fun acc i => acc.set i (f i)) img

theorem mergeLoop_no_cancel (pairs : List (ℕ × Row)) :
    ∀ (k : ℕ) (img : Image),
      mergeLoop (fun _ => false) pairs k img
        = some (pairs.foldl (fun acc p => acc.set p.1 p.2) img) := by
  induction pairs with
  | nil => intro k img; rfl
  | cons p rest ih =>
    intro k img
    simpa [mergeLoop] using ih (k + 1) (img.set p.1 p.2)

theorem seqLoop_no_cancel (rowOf : ℕ → Row) :
    ∀ (fuel i : ℕ) (img : Image),
      seqLoop rowOf (fun _ => false) fuel i img
        = some (mergeFold rowOf (List.range' i fuel) img) := by
  intro fuel
  induction fuel with
  | zero => intro i img; rfl
  | succ n ih =>
    intro i img
    simpa [seqLoop, List.range', mergeFold] using ih (i + 1) (img.set i (rowOf i))

theorem mergeFold_length (f : ℕ → Row) (order : List ℕ) :
    ∀ img : Image, (mergeFold f order img).length = img.length := by
  induction order with
  | nil => intro img; rfl
  | cons i rest ih =>
    intro img
    simpa [mergeFold] using
      (ih (img.set i (f i))).trans (List.length_set img i (f i))

theorem mergeFold_getElem_of_not_mem (f : ℕ → Row) (order : List ℕ) :
    ∀ (img : Image) (k : ℕ), k ∉ order →
      (mergeFold f order img)[k]? = img[k]? := by
  induction order with
  | nil => intro img k _; rfl
  | cons i rest ih =>
    intro img k hk
    have hki : i ≠ k := fun h => hk (h ▸ List.mem_cons_self i rest)
    have hkr : k ∉ rest := fun h => hk (List.mem_cons_of_mem i h)
    calc (mergeFold f (i :: rest) img)[k]?
        = (mergeFold f rest (img.set i (f i)))[k]? := rfl
      _ = (img.set i (f i))[k]? := ih (img.set i (f i)) k hkr
      _ = img[k]? := List.getElem?_set_ne hki

theorem mergeFold_getElem_of_mem (f : ℕ → Row) (order : List ℕ) :
    ∀ (img : Image) (k : ℕ), k ∈ order → k < img.length →
      (mergeFold f order img)[k]? = some (f k) := by
  induction order with
  | nil => intro img k hk _; cases hk
  | cons i rest ih =>
    intro img k hk hlen
    by_cases hkr : k ∈ rest
    · have : (mergeFold f (i :: rest) img) = mergeFold f rest (img.set i (f i)) := rfl
      rw [this, ih (img.set i (f i)) k hkr]
      simpa [List.length_set] using hlen
    · have hki : k = i := by
        rcases List.mem_cons.mp hk with h | h
        · exact h
        · exact absurd h hkr
      subst hki
      calc (mergeFold f (k :: rest) img)[k]?
          = (mergeFold f rest (img.set k (f k)))[k]? := rfl
        _ = (img.set k (f k))[k]? :=
            mergeFold_getElem_of_not_mem f rest (img.set k (f k)) k hkr
        _ = some (f k) := List.getElem?_set_self hlen

theorem mergeFold_perm_range (f : ℕ → Row) (height : ℕ) (order : List ℕ)
    (hperm : order.Perm (List.range height)) (img : Image)
    (hlen : img.length = height) :
    mergeFold f order img = mergeFold f (List.range height) img := by
  apply List.ext_getElem?
  intro k
  by_cases hk : k < height
  · have hmem₂ : k ∈ List.range height := List.mem_range.mpr hk
    have hmem₁ : k ∈ order := hperm.mem_iff.mpr hmem₂
    rw [mergeFold_getElem_of_mem f order img k hmem₁ (hlen ▸ hk),
      mergeFold_getElem_of_mem f (List.range height) img k hmem₂ (hlen ▸ hk)]
  · have h₁ : (mergeFold f order img).length ≤ k := by
      rw [mergeFold_length, hlen]; omega
    have h₂ : (mergeFold f (List.range height) img).length ≤ k := by
      rw [mergeFold_length, hlen]; omega
    rw [List.getElem?_eq_none h₁, List.getElem?_eq_none h₂]

/-- C1: for every render job (any fractal and palette lookup result, bounds,
`max_iter`, dimensions), the image produced by `compute_fractal_parallel`
equals, pixel for pixel, the image produced by `compute_fractal_sequential`
with the same per-pixel compute and color functions; the result does not
depend on the number of workers nor on the order in which rows complete. -/
theorem parallel_matches_sequential {V : Type}
    (lookupFractal : String → Option (ℚ → ℚ → ℕ → V))
    (lookupPalette : String → Option (V → ℕ → Color))
    (fractalName paletteName : String)
    (f : ℚ → ℚ → ℕ → V) (p : V → ℕ → Color)
    (width height maxIter numWorkers : ℕ) (bounds : Bounds)
    (completionOrder : List ℕ)
    (hf : lookupFractal fractalName = some f)
    (hp : lookupPalette paletteName = some p)
    (horder : completionOrder.Perm (List.range height)) :
    compute_fractal_parallel lookupFractal lookupPalette width height bounds
        fractalName maxIter paletteName numWorkers completionOrder (fun _ => false)
      = compute_fractal_sequential width height bounds f maxIter p (fun _ => false) := by
  unfold compute_fractal_parallel compute_fractal_sequential
  rw [mergeLoop_no_cancel, seqLoop_no_cancel]
  have hwrap : ∀ i : ℕ,
      compute_row_wrapper lookupFractal lookupPalette fractalName paletteName
        (linspace bounds.xmin bounds.xmax width)
        (linspaceVal bounds.ymin bounds.ymax height (height - 1 - i)) maxIter i
      = (i, (linspace bounds.xmin bounds.xmax width).map (fun x =>
          p (f x (linspaceVal bounds.ymin bounds.ymax height (height - 1 - i)) maxIter) maxIter)) := by
    intro i
    rw [compute_row_wrapper, hf, hp]
  rw [List.foldl_map]
  have hfold :
      completionOrder.foldl
        (fun (acc : Image) (i : ℕ) =>
          acc.set (compute_row_wrapper lookupFractal lookupPalette fractalName paletteName
              (linspace bounds.xmin bounds.xmax width)
              (linspaceVal bounds.ymin bounds.ymax height (height - 1 - i)) maxIter i).1
            (compute_row_wrapper lookupFractal lookupPalette fractalName paletteName
              (linspace bounds.xmin bounds.xmax width)
              (linspaceVal bounds.ymin bounds.ymax height (height - 1 - i)) maxIter i).2)
        (List.replicate height (List.replicate width (0, 0, 0)))
      = mergeFold
          (fun i => (linspace bounds.xmin bounds.xmax width).map (fun x =>
            p (f x (linspaceVal bounds.ymin bounds.ymax height (height - 1 - i)) maxIter) maxIter))
          completionOrder
          (List.replicate height (List.replicate width (0, 0, 0))) := by
    unfold mergeFold
    congr 1
    funext acc i
    rw [hwrap i]
  rw [hfold,
    mergeFold_perm_range _ height completionOrder horder _ (List.length_replicate height _),
    ← List.range_eq_range']

/-- A concrete per-pixel compute function used to exercise the renderer. -/
def demoCompute : ℚ → ℚ → ℕ → ℚ := fun x y m => x * y + m

/-- A concrete palette color function used to exercise the renderer. -/
def demoColor : ℚ → ℕ → Color := fun v m => ((if v ≤ 0 then 0 else 1), m % 256, 2)

/-- A registry lookup with a single fractal registered. -/
def demoLookupFractal : String → Option (ℚ → ℚ → ℕ → ℚ) :=
  fun s => if s = "mandelbrot" then some demoCompute else none

/-- A registry lookup with a single palette registered. -/
def demoLookupPalette : String → Option (ℚ → ℕ → Color) :=
  fun s => if s = "fire" then some demoColor else none

/-- A concrete viewport bounds value. -/
def demoBounds : Bounds := ⟨-2, 1, -1, 1⟩

/-- Witness for C1: a concrete 3×2 job, rows completing out of order. -/
theorem parallel_matches_sequential_witness :
    compute_fractal_parallel demoLookupFractal demoLookupPalette 3 2 demoBounds
        "mandelbrot" 10 "fire" 4 [1, 0] (fun _ => false)
      = compute_fractal_sequential 3 2 demoBounds demoCompute 10 demoColor
          (fun _ => false) :=
  parallel_matches_sequential demoLookupFractal demoLookupPalette
    "mandelbrot" "fire" demoCompute demoColor 3 2 10 4 demoBounds [1, 0]
    rfl rfl (by decide)

/-- C4: if the cancellation check already reports cancelled at its first poll
(before any chunk row has been merged), both the parallel and the sequential
renderer return `none` — the cancellation result — never an image, in
particular never a zero-filled or partially-filled pixel buffer. -/
theorem cancelled_before_first_merge_returns_none {V : Type}
    (lookupFractal : String → Option (ℚ → ℚ → ℕ → V))
    (lookupPalette : String → Option (V → ℕ → Color))
    (fractalName paletteName : String)
    (width height maxIter numWorkers : ℕ) (bounds : Bounds)
    (completionOrder : List ℕ) (cancelCheck : ℕ → Bool)
    (hheight : 1 ≤ height)
    (horder : completionOrder.Perm (List.range height))
    (hcancel : cancelCheck 0 = true) :
    compute_fractal_parallel lookupFractal lookupPalette width height bounds
        fractalName maxIter paletteName numWorkers completionOrder cancelCheck = none ∧
    ∀ (f : ℚ → ℚ → ℕ → V) (p : V → ℕ → Color),
      compute_fractal_sequential width height bounds f maxIter p cancelCheck = none := by
  constructor
  · have hne : completionOrder ≠ [] := by
      intro h
      have := horder.length_eq
      simp [h, List.length_range] at this
      omega
    obtain ⟨j, rest, rfl⟩ := List.exists_cons_of_ne_nil hne
    unfold compute_fractal_parallel
    simp only [List.map_cons]
    rw [show compute_row_wrapper lookupFractal lookupPalette fractalName paletteName
          (linspace bounds.xmin bounds.xmax width)
          (linspaceVal bounds.ymin bounds.ymax height (height - 1 - j)) maxIter j
        = ((compute_row_wrapper lookupFractal lookupPalette fractalName paletteName
            (linspace bounds.xmin bounds.xmax width)
            (linspaceVal bounds.ymin bounds.ymax height (height - 1 - j)) maxIter j).1,
           (compute_row_wrapper lookupFractal lookupPalette fractalName paletteName
            (linspace bounds.xmin bounds.xmax width)
            (linspaceVal bounds.ymin bounds.ymax height (height - 1 - j)) maxIter j).2)
        from rfl]
    simp [mergeLoop, hcancel]
  · intro f p
    obtain ⟨h, rfl⟩ : ∃ h, height = h + 1 := ⟨height - 1, by omega⟩
    unfold compute_fractal_sequential
    simp [seqLoop, hcancel]

/-- Witness for C4: a concrete 1×1 job whose cancellation token is set from
the start; both render paths return `none`. -/
theorem cancelled_before_first_merge_returns_none_witness :
    compute_fractal_parallel demoLookupFractal demoLookupPalette 1 1 demoBounds
        "mandelbrot" 10 "fire" 2 [0] (fun _ => true) = none ∧
    compute_fractal_sequential 1 1 demoBounds demoCompute 10 demoColor
        (fun _ => true) = none := by
  have h := cancelled_before_first_merge_returns_none demoLookupFractal
    demoLookupPalette "mandelbrot" "fire" 1 1 10 2 demoBounds [0]
    (fun _ => true) (by decide) (by decide) rfl
  exact ⟨h.1, h.2 demoCompute demoColor⟩

theorem mergeFold_const_replicate (r : Row) (order : List ℕ) (height : ℕ) :
    mergeFold (fun _ => r) order (List.replicate height r)
      = List.replicate height r := by
  apply List.ext_getElem?
  intro k
  by_cases hmem : k ∈ order
  · by_cases hk : k < height
    · rw [mergeFold_getElem_of_mem _ _ _ _ hmem (by simpa using hk)]
      simp [List.getElem?_replicate, hk]
    · rw [List.getElem?_eq_none (l := List.replicate height r) (by simpa using le_of_not_lt hk),
        List.getElem?_eq_none]
      rw [mergeFold_length]
      simpa using le_of_not_lt hk
  · rw [mergeFold_getElem_of_not_mem _ _ _ _ hmem]

/-- C7 (amended): when a worker fails to construct the fractal (the registry
lookup fails mid-render), it returns a zero-filled row for every row index,
and `compute_fractal_parallel` merges those substitute rows and returns them
as a normal image — an all-zero (black) image — rather than an explicit,
typed non-image result. -/
theorem worker_failure_returns_zero_filled_image {V : Type}
    (lookupFractal : String → Option (ℚ → ℚ → ℕ → V))
    (lookupPalette : String → Option (V → ℕ → Color))
    (fractalName paletteName : String)
    (width height maxIter numWorkers : ℕ) (bounds : Bounds)
    (completionOrder : List ℕ)
    (hfail : lookupFractal fractalName = none) :
    compute_fractal_parallel lookupFractal lookupPalette width height bounds
        fractalName maxIter paletteName numWorkers completionOrder (fun _ => false)
      = some (List.replicate height (List.replicate width (0, 0, 0))) := by
  unfold compute_fractal_parallel
  rw [mergeLoop_no_cancel, List.foldl_map]
  have hlen : (linspace bounds.xmin bounds.xmax width).length = width := by
    simp [linspace]
  have hwrap : ∀ i : ℕ,
      compute_row_wrapper lookupFractal lookupPalette fractalName paletteName
        (linspace bounds.xmin bounds.xmax width)
        (linspaceVal bounds.ymin bounds.ymax height (height - 1 - i)) maxIter i
      = (i, List.replicate width (0, 0, 0)) := by
    intro i
    unfold compute_row_wrapper
    rw [hfail]
    cases lookupPalette paletteName <;> simp [hlen]
  have hfold :
      completionOrder.foldl
        (fun (acc : Image) (i : ℕ) =>
          acc.set (compute_row_wrapper lookupFractal lookupPalette fractalName paletteName
              (linspace bounds.xmin bounds.xmax width)
              (linspaceVal bounds.ymin bounds.ymax height (height - 1 - i)) maxIter i).1
            (compute_row_wrapper lookupFractal lookupPalette fractalName paletteName
              (linspace bounds.xmin bounds.xmax width)
              (linspaceVal bounds.ymin bounds.ymax height (height - 1 - i)) maxIter i).2)
        (List.replicate height (List.replicate width (0, 0, 0)))
      = mergeFold (fun _ => List.replicate width (0, 0, 0)) completionOrder
          (List.replicate height (List.replicate width (0, 0, 0))) := by
    unfold mergeFold
    congr 1
    funext acc i
    rw [hwrap i]
  rw [hfold, mergeFold_const_replicate]

/-- Witness for C7 (amended): concrete failing lookups on a 1×1 job — the
returned value is a normal image consisting of a zero row. -/
theorem worker_failure_returns_zero_filled_image_witness :
    compute_fractal_parallel (V := ℚ) (fun _ => none) (fun _ => none)
        1 1 demoBounds "mandelbrot" 100 "fire" 1 [0] (fun _ => false)
      = some [[(0, 0, 0)]] :=
  worker_failure_returns_zero_filled_image (V := ℚ) (fun _ => none) (fun _ => none)
    "mandelbrot" "fire" 1 1 100 1 demoBounds [0] rfl

/-- C7 counterexample: a failure mode (the worker cannot construct the
fractal or the palette — both lookups miss) for which the render call
nevertheless returns a normal image whose single row is a substitute
zero-filled row, instead of a typed non-image result. -/
theorem worker_failure_substitute_rows_counterexample :
    compute_fractal_parallel (V := ℚ) (fun _ => none) (fun _ => none)
        2 1 demoBounds "nosuchfractal" 100 "nosuchpalette" 1 [0] (fun _ => false)
      = some [[(0, 0, 0), (0, 0, 0)]] := by
  decide

/-- The per-fractal undo/redo history of `fractal_explorer.py`: the list of
saved states for one fractal key together with the cursor
(`fractal_history_indices[...]`, initialised to `-1`, hence an integer). -/
structure ViewHistory (σ : Type) where
  hist : List σ
  idx : ℤ
  deriving DecidableEq

/-- A fresh history: empty list, cursor `-1`. -/
def ViewHistory.empty {σ : Type} : ViewHistory σ := ⟨[], -1⟩

/-- `MAX_HISTORY_SIZE` from `fractal_explorer.py`. -/
def MAX_HISTORY_SIZE : ℕ := 50

/-- `_push_current_state` from `fractal_explorer.py`, restricted to one
fractal key.  If the cursor points at a stored state equal to the state being
pushed, the push is a no-op (duplicate suppression).  Otherwise any future
entries beyond the cursor are discarded, the state is appended, and either
the oldest entry is evicted (cursor set to the new tail) when the bound is
exceeded, or the cursor is advanced. -/
def ViewHistory.push {σ : Type} [DecidableEq σ]
    (h : ViewHistory σ) (maxSize : ℕ) (state : σ) : ViewHistory σ :=
  if h.hist ≠ [] ∧ 0 ≤ h.idx ∧ h.idx < (h.hist.length : ℤ) ∧
      h.hist[h.idx.toNat]? = some state then
    h
  else
    let hist1 := if h.idx < (h.hist.length : ℤ) - 1
      then h.hist.take (h.idx + 1).toNat else h.hist
    let hist2 := hist1 ++ [state]
    if maxSize < hist2.length then
      ⟨hist2.drop 1, ((hist2.drop 1).length : ℤ) - 1⟩
    else
      ⟨hist2, h.idx + 1⟩

/-- `go_back` from `fractal_explorer.py` (undo): if the cursor can move back,
decrement it and restore (return) the state at the new cursor; otherwise a
no-op returning nothing. -/
def ViewHistory.go_back {σ : Type} (h : ViewHistory σ) :
    ViewHistory σ × Option σ :=
  if 0 < h.idx then
    (⟨h.hist, h.idx - 1⟩, h.hist[(h.idx - 1).toNat]?)
  else (h, none)

/-- `go_forward` from `fractal_explorer.py` (redo): if the cursor can move
forward, increment it and restore (return) the state at the new cursor;
otherwise a no-op returning nothing. -/
def ViewHistory.go_forward {σ : Type} (h : ViewHistory σ) :
    ViewHistory σ × Option σ :=
  if h.idx < (h.hist.length : ℤ) - 1 then
    (⟨h.hist, h.idx + 1⟩, h.hist[(h.idx + 1).toNat]?)
  else (h, none)

theorem push_on_empty {σ : Type} [DecidableEq σ] (a : σ) :
    (ViewHistory.empty.push MAX_HISTORY_SIZE a) = ⟨[a], 0⟩ := by
  simp [ViewHistory.push, ViewHistory.empty, MAX_HISTORY_SIZE]

theorem push_on_single {σ : Type} [DecidableEq σ] (a b : σ) (hba : b ≠ a) :
    ((⟨[a], 0⟩ : ViewHistory σ).push MAX_HISTORY_SIZE b) = ⟨[a, b], 1⟩ := by
  have : ¬ (([a] : List σ) ≠ [] ∧ (0 : ℤ) ≤ 0 ∧ (0 : ℤ) < (([a] : List σ).length : ℤ) ∧
      ([a] : List σ)[(0 : ℤ).toNat]? = some b) := by
    intro hcontr
    have := hcontr.2.2.2
    simp at this
    exact hba this.symm
  simp only [ViewHistory.push, if_neg this]
  norm_num [MAX_HISTORY_SIZE]

theorem go_back_pair {σ : Type} (a b : σ) :
    ((⟨[a, b], 1⟩ : ViewHistory σ).go_back) = (⟨[a, b], 0⟩, some a) := by
  simp [ViewHistory.go_back]

theorem push_after_undo {σ : Type} [DecidableEq σ] (a b c : σ) (hca : c ≠ a) :
    ((⟨[a, b], 0⟩ : ViewHistory σ).push MAX_HISTORY_SIZE c) = ⟨[a, c], 1⟩ := by
  have : ¬ (([a, b] : List σ) ≠ [] ∧ (0 : ℤ) ≤ 0 ∧
      (0 : ℤ) < (([a, b] : List σ).length : ℤ) ∧
      ([a, b] : List σ)[(0 : ℤ).toNat]? = some c) := by
    intro hcontr
    have := hcontr.2.2.2
    simp at this
    exact hca this.symm
  simp only [ViewHistory.push, if_neg this]
  norm_num [MAX_HISTORY_SIZE, List.take]

theorem go_forward_at_tail {σ : Type} (a c : σ) :
    ((⟨[a, c], 1⟩ : ViewHistory σ).go_forward) = (⟨[a, c], 1⟩, none) := by
  simp [ViewHistory.go_forward]

/-- C2 (amended): starting from the empty history, `push a; push b; undo`
returns `a`, and after then pushing a state `c`, a subsequent redo is a
no-op (the branch containing `b` was discarded) — provided `b` differs from
`a` and `c` differs from `a`; a push of a state equal to the one at the
cursor is suppressed as a duplicate, in which case the redo branch survives. -/
theorem viewhistory_undo_then_push_discards_redo {σ : Type} [DecidableEq σ]
    (a b c : σ) (hba : b ≠ a) (hca : c ≠ a) :
    ((ViewHistory.empty.push MAX_HISTORY_SIZE a).push MAX_HISTORY_SIZE b).go_back.2
        = some a ∧
    ((((ViewHistory.empty.push MAX_HISTORY_SIZE a).push MAX_HISTORY_SIZE b).go_back.1.push
        MAX_HISTORY_SIZE c).go_forward)
      = ((((ViewHistory.empty.push MAX_HISTORY_SIZE a).push MAX_HISTORY_SIZE b).go_back.1.push
          MAX_HISTORY_SIZE c), none) := by
  rw [push_on_empty, push_on_single a b hba, go_back_pair]
  constructor
  · rfl
  · rw [show ((⟨[a, b], 0⟩ : ViewHistory σ), some a).1 = (⟨[a, b], 0⟩ : ViewHistory σ) from rfl,
      push_after_undo a b c hca, go_forward_at_tail]

/-- Witness for C2 (amended): concrete distinct states `0, 1, 2 : ℕ`. -/
theorem viewhistory_undo_then_push_discards_redo_witness :
    ((ViewHistory.empty.push MAX_HISTORY_SIZE (0 : ℕ)).push MAX_HISTORY_SIZE 1).go_back.2
        = some 0 ∧
    ((((ViewHistory.empty.push MAX_HISTORY_SIZE (0 : ℕ)).push MAX_HISTORY_SIZE 1).go_back.1.push
        MAX_HISTORY_SIZE 2).go_forward)
      = ((((ViewHistory.empty.push MAX_HISTORY_SIZE (0 : ℕ)).push MAX_HISTORY_SIZE 1).go_back.1.push
          MAX_HISTORY_SIZE 2), none) :=
  viewhistory_undo_then_push_discards_redo 0 1 2 (by decide) (by decide)

/-- C2 counterexample: with `a = 0`, `b = 1` and `c = 0` (i.e. `c` equal to
the state restored by the undo), the push is suppressed as a duplicate, the
redo branch is NOT discarded, and the subsequent redo is not a no-op: it
moves the cursor and restores `b = 1`. -/
theorem viewhistory_redo_after_duplicate_push_counterexample :
    ((((ViewHistory.empty.push MAX_HISTORY_SIZE (0 : ℕ)).push MAX_HISTORY_SIZE 1).go_back.1.push
        MAX_HISTORY_SIZE 0).go_forward).2 = some 1 := by
  decide

/-- C9: pushing a state equal to the state currently at the history cursor is
a no-op: the history contents, its length and the cursor are all unchanged. -/
theorem push_duplicate_is_noop {σ : Type} [DecidableEq σ]
    (h : ViewHistory σ) (s : σ) (maxSize : ℕ)
    (h0 : 0 ≤ h.idx) (h1 : h.idx < (h.hist.length : ℤ))
    (h2 : h.hist[h.idx.toNat]? = some s) :
    h.push maxSize s = h := by
  have hne : h.hist ≠ [] := by
    intro hnil
    rw [hnil] at h1
    simp at h1
    omega
  unfold ViewHistory.push
  rw [if_pos ⟨hne, h0, h1, h2⟩]

/-- Witness for C9: a concrete history whose cursor points at `5`; pushing
`5` again leaves it unchanged. -/
theorem push_duplicate_is_noop_witness :
    (⟨[5, 7], 0⟩ : ViewHistory ℕ).push MAX_HISTORY_SIZE 5 = ⟨[5, 7], 0⟩ :=
  push_duplicate_is_noop ⟨[5, 7], 0⟩ 5 MAX_HISTORY_SIZE (by decide) (by decide)
    (by decide)

/-- The fractal classes registered at import time in `fractals/` via the
`register_fractal` decorators. -/
inductive FractalClass
  | barnsleyFern
  | barnsleyFernVariant
  | burningShip
  | cubicJulia
  | mandelbrotDeribail
  | mandelbrotExterior
  | feather
  | sierpinskiTriangle
  | sierpinskiCarpet
  | dragonCurve
  | mapleLeaf
  | mandelbrotInterior
  | julia
  | juliaDendrite
  | juliaDragon
  | juliaSpiral
  | mandelbrot
  | multibrot
  | newton
  | nova
  | mandelbrotOrbitTrap
  | phoenix
  | mandelbrotStalks
  | spider
  | tricorn
  deriving DecidableEq

/-- `FractalRegistry._fractals` after all `@register_fractal(name)` decorators
in `fractals/` have run: the name → class mapping. -/
def registeredFractals : List (String × FractalClass) := [
  ("barnsley_fern", .barnsleyFern),
  ("barnsley_fern_variant", .barnsleyFernVariant),
  ("burning_ship", .burningShip),
  ("cubic_julia", .cubicJulia),
  ("mandelbrot_deribail", .mandelbrotDeribail),
  ("mandelbrot_exterior", .mandelbrotExterior),
  ("feather", .feather),
  ("sierpinski_triangle", .sierpinskiTriangle),
  ("sierpinski_carpet", .sierpinskiCarpet),
  ("dragon_curve", .dragonCurve),
  ("maple_leaf", .mapleLeaf),
  ("mandelbrot_interior", .mandelbrotInterior),
  ("julia", .julia),
  ("julia_dendrite", .juliaDendrite),
  ("julia_dragon", .juliaDragon),
  ("julia_spiral", .juliaSpiral),
  ("mandelbrot", .mandelbrot),
  ("multibrot", .multibrot),
  ("newton", .newton),
  ("nova", .nova),
  ("mandelbrot_orbit_trap", .mandelbrotOrbitTrap),
  ("phoenix", .phoenix),
  ("mandelbrot_stalks", .mandelbrotStalks),
  ("spider", .spider),
  ("tricorn", .tricorn)]

/-- `FractalRegistry.get` from `fractals/__init__.py`: dictionary lookup,
`None` on a miss. -/
def FractalRegistry.get (name : String) : Option FractalClass :=
  registeredFractals.lookup name

/-- `FractalRegistry.create` from `fractals/__init__.py`: raises
`ValueError(f"Unknown fractal: {name}")` when the class is not registered,
otherwise instantiates the class.  The raised error is modelled as
`Except.error`. -/
def FractalRegistry.create (name : String) : Except String FractalClass :=
  match FractalRegistry.get name with
  | none => .error ("Unknown fractal: " ++ name)
  | some c => .ok c

/-- C5: every key not present in the fractal registry makes `create` produce
an explicit error to the caller (no silent fallback to a default fractal and
no silently-ignored miss), and every registered key makes `create` succeed. -/
theorem registry_create_explicit (name : String) :
    (FractalRegistry.get name = none →
      FractalRegistry.create name = .error ("Unknown fractal: " ++ name)) ∧
    (∀ c, FractalRegistry.get name = some c →
      FractalRegistry.create name = .ok c) := by
  constructor
  · intro h
    unfold FractalRegistry.create
    rw [h]
  · intro c h
    unfold FractalRegistry.create
    rw [h]

/-- Witness for C5: the registered key `mandelbrot` succeeds; the
unregistered key `does_not_exist` yields the explicit error. -/
theorem registry_create_explicit_witness :
    FractalRegistry.create "mandelbrot" = .ok .mandelbrot ∧
    FractalRegistry.create "does_not_exist"
      = .error ("Unknown fractal: " ++ "does_not_exist") :=
  ⟨(registry_create_explicit "mandelbrot").2 .mandelbrot rfl,
   (registry_create_explicit "does_not_exist").1 rfl⟩

/-- Truncation toward zero, the semantics of Python's `int(...)` on a
rational value. -/
def pyInt (q : ℚ) : ℤ :=
  if q < 0 then -(⌊-q⌋) else ⌊q⌋

/-- `ZoomController` of `navigation/__init__.py` (glm variant): canvas pixel
dimensions and the current complex-plane bounds. -/
structure ZoomController where
  width : ℕ
  height : ℕ
  xmin : ℚ
  xmax : ℚ
  ymin : ℚ
  ymax : ℚ

/-- `ZoomController.pixel_to_complex`: linear map from pixel to plane
coordinates (y flipped). -/
def ZoomController.pixel_to_complex (zc : ZoomController) (px py : ℤ) : ℚ × ℚ :=
  let w := zc.xmax - zc.xmin
  let h := zc.ymax - zc.ymin
  (zc.xmin + ((px : ℚ) / (zc.width : ℚ)) * w,
   zc.ymax - ((py : ℚ) / (zc.height : ℚ)) * h)

/-- `ZoomController.complex_to_pixel`: inverse linear map, truncated to
integer pixel coordinates with Python's `int(...)`. -/
def ZoomController.complex_to_pixel (zc : ZoomController) (x y : ℚ) : ℤ × ℤ :=
  let w := zc.xmax - zc.xmin
  let h := zc.ymax - zc.ymin
  (pyInt ((x - zc.xmin) / w * (zc.width : ℚ)),
   pyInt ((zc.ymax - y) / h * (zc.height : ℚ)))

/-- C8 counterexample: an 8×8 canvas over the bounds `[0,8] × [0,8]`; the
plane point `(1/2, 1/2)` maps to pixel `(0, 7)` and back to `(0, 1)`, half a
pixel away in x and half a pixel in y — far beyond floating rounding error
(the exact-rational model has no rounding error at all, so the claimed
round-trip identity would have to be exact here). -/
theorem pixel_roundtrip_counterexample :
    (let zc : ZoomController := ⟨8, 8, 0, 8, 0, 8⟩
     zc.pixel_to_complex (zc.complex_to_pixel (1/2) (1/2)).1
       (zc.complex_to_pixel (1/2) (1/2)).2) ≠ ((1/2 : ℚ), (1/2 : ℚ)) := by
  have hpix : (⟨8, 8, 0, 8, 0, 8⟩ : ZoomController).complex_to_pixel (1/2) (1/2)
      = (0, 7) := by
    unfold ZoomController.complex_to_pixel pyInt
    norm_num
  intro hcontr
  rw [show (let zc : ZoomController := ⟨8, 8, 0, 8, 0, 8⟩
      zc.pixel_to_complex (zc.complex_to_pixel (1/2) (1/2)).1
        (zc.complex_to_pixel (1/2) (1/2)).2)
    = (⟨8, 8, 0, 8, 0, 8⟩ : ZoomController).pixel_to_complex
        ((⟨8, 8, 0, 8, 0, 8⟩ : ZoomController).complex_to_pixel (1/2) (1/2)).1
        ((⟨8, 8, 0, 8, 0, 8⟩ : ZoomController).complex_to_pixel (1/2) (1/2)).2
    from rfl, hpix] at hcontr
  unfold ZoomController.pixel_to_complex at hcontr
  have := congrArg Prod.snd hcontr
  norm_num at this

/-- C8 (amended): for every valid viewport and plane point inside it, the
round trip `complex_to_pixel` followed by `pixel_to_complex` returns a point
within one pixel's extent of the input — the error is the pixel-grid
quantisation `(x_max−x_min)/width` resp. `(y_max−y_min)/height`, not mere
floating rounding error: `x` moves down to its pixel's left edge and `y` up
to its pixel's top edge. -/
theorem pixel_roundtrip_within_one_pixel (zc : ZoomController) (x y : ℚ)
    (hW : 1 ≤ zc.width) (hH : 1 ≤ zc.height)
    (hx : zc.xmin < zc.xmax) (hy : zc.ymin < zc.ymax)
    (hxl : zc.xmin ≤ x) (hxu : x ≤ zc.xmax)
    (hyl : zc.ymin ≤ y) (hyu : y ≤ zc.ymax) :
    0 ≤ x - (zc.pixel_to_complex (zc.complex_to_pixel x y).1
          (zc.complex_to_pixel x y).2).1 ∧
    x - (zc.pixel_to_complex (zc.complex_to_pixel x y).1
          (zc.complex_to_pixel x y).2).1 < (zc.xmax - zc.xmin) / (zc.width : ℚ) ∧
    0 ≤ (zc.pixel_to_complex (zc.complex_to_pixel x y).1
          (zc.complex_to_pixel x y).2).2 - y ∧
    (zc.pixel_to_complex (zc.complex_to_pixel x y).1
          (zc.complex_to_pixel x y).2).2 - y < (zc.ymax - zc.ymin) / (zc.height : ℚ) := by
  have hw : (0 : ℚ) < zc.xmax - zc.xmin := by linarith
  have hh : (0 : ℚ) < zc.ymax - zc.ymin := by linarith
  have hWq : (0 : ℚ) < (zc.width : ℚ) := by exact_mod_cast hW
  have hHq : (0 : ℚ) < (zc.height : ℚ) := by exact_mod_cast hH
  set w := zc.xmax - zc.xmin with hwdef
  set h := zc.ymax - zc.ymin with hhdef
  set t := (x - zc.xmin) / w * (zc.width : ℚ) with htdef
  set s := (zc.ymax - y) / h * (zc.height : ℚ) with hsdef
  have ht0 : 0 ≤ t := by
    apply mul_nonneg (div_nonneg (by linarith) (le_of_lt hw)) (le_of_lt hWq)
  have hs0 : 0 ≤ s := by
    apply mul_nonneg (div_nonneg (by linarith) (le_of_lt hh)) (le_of_lt hHq)
  have hpx : (zc.complex_to_pixel x y).1 = ⌊t⌋ := by
    simp only [ZoomController.complex_to_pixel, pyInt, ← htdef]
    rw [if_neg (not_lt.mpr ht0)]
  have hpy : (zc.complex_to_pixel x y).2 = ⌊s⌋ := by
    simp only [ZoomController.complex_to_pixel, pyInt, ← hsdef]
    rw [if_neg (not_lt.mpr hs0)]
  have hq1 : (zc.pixel_to_complex (zc.complex_to_pixel x y).1
      (zc.complex_to_pixel x y).2).1 = zc.xmin + ((⌊t⌋ : ℚ) / (zc.width : ℚ)) * w := by
    simp only [ZoomController.pixel_to_complex, hpx, ← hwdef]
  have hq2 : (zc.pixel_to_complex (zc.complex_to_pixel x y).1
      (zc.complex_to_pixel x y).2).2 = zc.ymax - ((⌊s⌋ : ℚ) / (zc.height : ℚ)) * h := by
    simp only [ZoomController.pixel_to_complex, hpy, ← hhdef]
  have hwne : w ≠ 0 := ne_of_gt hw
  have hWne : (zc.width : ℚ) ≠ 0 := ne_of_gt hWq
  have hhne : h ≠ 0 := ne_of_gt hh
  have hHne : (zc.height : ℚ) ≠ 0 := ne_of_gt hHq
  have hxeq : x - (zc.xmin + ((⌊t⌋ : ℚ) / (zc.width : ℚ)) * w)
      = (t - (⌊t⌋ : ℚ)) * (w / (zc.width : ℚ)) := by
    rw [htdef]
    field_simp
    ring
  have hyeq : (zc.ymax - ((⌊s⌋ : ℚ) / (zc.height : ℚ)) * h) - y
      = (s - (⌊s⌋ : ℚ)) * (h / (zc.height : ℚ)) := by
    rw [hsdef]
    field_simp
    ring
  have hflt : (⌊t⌋ : ℚ) ≤ t := Int.floor_le t
  have hfut : t < ⌊t⌋ + 1 := Int.lt_floor_add_one t
  have hfls : (⌊s⌋ : ℚ) ≤ s := Int.floor_le s
  have hfus : s < ⌊s⌋ + 1 := Int.lt_floor_add_one s
  have hwW : (0 : ℚ) < w / (zc.width : ℚ) := div_pos hw hWq
  have hhH : (0 : ℚ) < h / (zc.height : ℚ) := div_pos hh hHq
  refine ⟨?_, ?_, ?_, ?_⟩
  · rw [hq1, hxeq]
    exact mul_nonneg (by linarith) (le_of_lt hwW)
  · rw [hq1, hxeq]
    calc (t - (⌊t⌋ : ℚ)) * (w / (zc.width : ℚ)) < 1 * (w / (zc.width : ℚ)) :=
          mul_lt_mul_of_pos_right (by linarith) hwW
      _ = w / (zc.width : ℚ) := one_mul _
  · rw [hq2, hyeq]
    exact mul_nonneg (by linarith) (le_of_lt hhH)
  · rw [hq2, hyeq]
    calc (s - (⌊s⌋ : ℚ)) * (h / (zc.height : ℚ)) < 1 * (h / (zc.height : ℚ)) :=
          mul_lt_mul_of_pos_right (by linarith) hhH
      _ = h / (zc.height : ℚ) := one_mul _

/-- Witness for C8 (amended): the default 800×600 canvas over
`[-2, 1.5] × [-1.25, 1.25]` and the interior point `(1/3, 1/3)`. -/
theorem pixel_roundtrip_within_one_pixel_witness :
    0 ≤ (1/3 : ℚ) - ((⟨800, 600, -2, 3/2, -5/4, 5/4⟩ : ZoomController).pixel_to_complex
          ((⟨800, 600, -2, 3/2, -5/4, 5/4⟩ : ZoomController).complex_to_pixel (1/3) (1/3)).1
          ((⟨800, 600, -2, 3/2, -5/4, 5/4⟩ : ZoomController).complex_to_pixel (1/3) (1/3)).2).1 ∧
    (1/3 : ℚ) - ((⟨800, 600, -2, 3/2, -5/4, 5/4⟩ : ZoomController).pixel_to_complex
          ((⟨800, 600, -2, 3/2, -5/4, 5/4⟩ : ZoomController).complex_to_pixel (1/3) (1/3)).1
          ((⟨800, 600, -2, 3/2, -5/4, 5/4⟩ : ZoomController).complex_to_pixel (1/3) (1/3)).2).1
        < ((3/2 : ℚ) - (-2)) / ((800 : ℕ) : ℚ) := by
  have h := pixel_roundtrip_within_one_pixel ⟨800, 600, -2, 3/2, -5/4, 5/4⟩ (1/3) (1/3)
    (by norm_num) (by norm_num) (by norm_num) (by norm_num)
    (by norm_num) (by norm_num) (by norm_num) (by norm_num)
  exact ⟨h.1, h.2.1⟩

namespace Mandelbrot

/-- The iteration loop of `MandelbrotFractal.compute_pixel` from
`fractals/mandelbrot.py` (kimi variant).  `fuel` counts the remaining
iterations of `for i in range(max_iter)`, `i` the current iteration index.
At the top of each iteration: if `abs(z) > 2` the smooth-colored value
`i + 1 - log(log|z| / log 2) / log 2` is returned, otherwise `z ← z² + c`.
When the loop ends without escaping, `max_iter` is returned.  Python floats
are modelled as reals. -/
noncomputable def loop (c : ℂ) (maxIter : ℕ) : ℕ → ℕ → ℂ → ℝ
  | 0, _, _ => maxIter
  | fuel + 1, i, z =>
    if 2 < Complex.abs z then
      (i : ℝ) + 1 - Real.log (Real.log (Complex.abs z) / Real.log 2) / Real.log 2
    else loop c maxIter fuel (i + 1) (z * z + c)

/-- `MandelbrotFractal.compute_pixel(x, y, max_iter)`: start at `z = 0` with
`c = x + yi` and run the iteration loop. -/
noncomputable def compute_pixel (x y : ℝ) (maxIter : ℕ) : ℝ :=
  loop ⟨x, y⟩ maxIter maxIter 0 0

theorem mandel_loop_succ (c : ℂ) (maxIter fuel i : ℕ) (z : ℂ) :
    loop c maxIter (fuel + 1) i z
      = if 2 < Complex.abs z then
          (i : ℝ) + 1 - Real.log (Real.log (Complex.abs z) / Real.log 2) / Real.log 2
        else loop c maxIter fuel (i + 1) (z * z + c) := rfl

theorem loop_eq_maxIter_of_invariant (c : ℂ) (maxIter : ℕ) (S : Set ℂ)
    (hS : ∀ z ∈ S, Complex.abs z ≤ 2 ∧ z * z + c ∈ S) :
    ∀ (fuel i : ℕ) (z : ℂ), z ∈ S → loop c maxIter fuel i z = maxIter := by
  intro fuel
  induction fuel with
  | zero => intro i z _; rfl
  | succ n ih =>
    intro i z hz
    rw [mandel_loop_succ, if_neg (not_lt.mpr (hS z hz).1)]
    exact ih (i + 1) (z * z + c) (hS z hz).2

theorem compute_pixel_origin (maxIter : ℕ) :
    compute_pixel 0 0 maxIter = maxIter := by
  have h0 : (⟨(0 : ℝ), (0 : ℝ)⟩ : ℂ) = 0 := by
    simp [Complex.ext_iff]
  unfold compute_pixel
  rw [h0]
  refine loop_eq_maxIter_of_invariant 0 maxIter {0} ?_ maxIter 0 0 rfl
  intro z hz
  rw [Set.mem_singleton_iff] at hz
  subst hz
  constructor
  · simp
  · simp

theorem compute_pixel_neg_one (maxIter : ℕ) :
    compute_pixel (-1) 0 maxIter = maxIter := by
  have h0 : (⟨(-1 : ℝ), (0 : ℝ)⟩ : ℂ) = -1 := by
    simp [Complex.ext_iff]
  unfold compute_pixel
  rw [h0]
  refine loop_eq_maxIter_of_invariant (-1) maxIter {0, -1} ?_ maxIter 0 0 (by simp)
  intro z hz
  rcases hz with hz | hz
  · subst hz
    constructor
    · simp
    · rw [Set.mem_insert_iff]
      right
      rw [Set.mem_singleton_iff]
      ring
  · rw [Set.mem_singleton_iff] at hz
    subst hz
    constructor
    · rw [map_neg_eq_map, map_one]
      norm_num
    · rw [Set.mem_insert_iff]
      left
      ring

theorem compute_pixel_two_eval :
    compute_pixel 2 0 100
      = 3 - Real.log (Real.log 6 / Real.log 2) / Real.log 2 := by
  have hc : (⟨(2 : ℝ), (0 : ℝ)⟩ : ℂ) = 2 := by
    simp [Complex.ext_iff]
  unfold compute_pixel
  rw [hc]
  rw [show (100 : ℕ) = 99 + 1 from rfl, mandel_loop_succ, if_neg (by simp)]
  rw [show ((0 : ℂ) * 0 + 2) = 2 from by ring]
  rw [show (99 : ℕ) = 98 + 1 from rfl, mandel_loop_succ,
    if_neg (by rw [Complex.abs_two]; norm_num)]
  rw [show ((2 : ℂ) * 2 + 2) = 6 from by ring]
  rw [show (98 : ℕ) = 97 + 1 from rfl, mandel_loop_succ,
    if_pos (by rw [Complex.abs_ofNat]; norm_num)]
  rw [Complex.abs_ofNat]
  norm_num

theorem smooth_exponent_two_zero_bounds :
    1 < Real.log (Real.log 6 / Real.log 2) / Real.log 2 ∧
    Real.log (Real.log 6 / Real.log 2) / Real.log 2 < 2 := by
  have h2 : (0 : ℝ) < Real.log 2 := Real.log_pos (by norm_num)
  have hlog4 : Real.log 4 = 2 * Real.log 2 := by
    rw [show (4 : ℝ) = 2 ^ (2 : ℕ) by norm_num, Real.log_pow]
    norm_num
  have hlog16 : Real.log 16 = 4 * Real.log 2 := by
    rw [show (16 : ℝ) = 2 ^ (4 : ℕ) by norm_num, Real.log_pow]
    norm_num
  have h46 : Real.log 4 < Real.log 6 := Real.log_lt_log (by norm_num) (by norm_num)
  have h616 : Real.log 6 < Real.log 16 := Real.log_lt_log (by norm_num) (by norm_num)
  have hX1 : 2 < Real.log 6 / Real.log 2 := by
    rw [lt_div_iff h2]
    linarith
  have hX2 : Real.log 6 / Real.log 2 < 4 := by
    rw [div_lt_iff h2]
    linarith
  have hA1 : Real.log 2 < Real.log (Real.log 6 / Real.log 2) :=
    Real.log_lt_log (by norm_num) hX1
  have hA2 : Real.log (Real.log 6 / Real.log 2) < Real.log 4 :=
    Real.log_lt_log (by linarith) hX2
  constructor
  · rw [lt_div_iff h2, one_mul]
    exact hA1
  · rw [div_lt_iff h2]
    linarith

theorem loop_le_maxIter (c : ℂ) (maxIter : ℕ) :
    ∀ (fuel i : ℕ), i + fuel ≤ maxIter → ∀ z : ℂ,
      loop c maxIter fuel i z ≤ maxIter := by
  intro fuel
  induction fuel with
  | zero => intro i _ z; exact le_refl _
  | succ n ih =>
    intro i hi z
    rw [mandel_loop_succ]
    by_cases h : 2 < Complex.abs z
    · rw [if_pos h]
      have h2 : (0 : ℝ) < Real.log 2 := Real.log_pos (by norm_num)
      have hnu : 0 < Real.log (Real.log (Complex.abs z) / Real.log 2) / Real.log 2 := by
        apply div_pos _ h2
        apply Real.log_pos
        rw [lt_div_iff h2, one_mul]
        exact Real.log_lt_log (by norm_num) h
      have hile : (i : ℝ) + 1 ≤ (maxIter : ℝ) := by
        have : i + 1 ≤ maxIter := by omega
        exact_mod_cast this
      linarith
    · rw [if_neg h]
      exact ih (i + 1) (by omega) _

end Mandelbrot

namespace OpusFractals

/-- The iteration loop of `MandelbrotFractal.calculate` from
`fractal_generator/fractals.py` (opus variant): real/imaginary parts held
separately, escape test `z_real² + z_imag² > 4` at the top of each
iteration, returning the raw iteration index `i` on escape and `max_iter`
when the loop ends. -/
def calcLoop (cr ci : ℚ) (maxIter : ℕ) : ℕ → ℕ → ℚ → ℚ → ℕ
  | 0, _, _, _ => maxIter
  | fuel + 1, i, zr, zi =>
    if 4 < zr * zr + zi * zi then i
    else calcLoop cr ci maxIter fuel (i + 1) (zr * zr - zi * zi + cr) (2 * zr * zi + ci)

/-- `MandelbrotFractal.calculate(x, y, max_iter)` (opus variant): start at
`z = 0` with `c = x + yi`. -/
def MandelbrotFractal.calculate (x y : ℚ) (maxIter : ℕ) : ℕ :=
  calcLoop x y maxIter maxIter 0 0 0

theorem calcLoop_succ (cr ci : ℚ) (maxIter fuel i : ℕ) (zr zi : ℚ) :
    calcLoop cr ci maxIter (fuel + 1) i zr zi
      = if 4 < zr * zr + zi * zi then i
        else calcLoop cr ci maxIter fuel (i + 1) (zr * zr - zi * zi + cr)
          (2 * zr * zi + ci) := rfl

theorem calculate_two_eval : MandelbrotFractal.calculate 2 0 100 = 2 := by
  unfold MandelbrotFractal.calculate
  rw [show (100 : ℕ) = 99 + 1 from rfl, calcLoop_succ, if_neg (by norm_num)]
  norm_num
  rw [show (99 : ℕ) = 98 + 1 from rfl, calcLoop_succ, if_neg (by norm_num)]
  norm_num
  rw [show (98 : ℕ) = 97 + 1 from rfl, calcLoop_succ, if_pos (by norm_num)]

end OpusFractals

/-- C3 counterexample: with `max_iter = 100` the kimi `compute_pixel` does
not return `1` at the point `(2, 0)`: the escape test `abs(z) > 2` is strict,
so the point escapes only at the third check and the smooth-colored return
value is `3 − log₂(log₂ 6) ∈ (1, 2)`. -/
theorem mandelbrot_two_zero_not_one_counterexample :
    Mandelbrot.compute_pixel 2 0 100 ≠ 1 := by
  rw [Mandelbrot.compute_pixel_two_eval]
  have h := Mandelbrot.smooth_exponent_two_zero_bounds
  intro hcontr
  have : Real.log (Real.log 6 / Real.log 2) / Real.log 2 = 2 := by linarith
  linarith [h.2]

/-- C3 (amended): for the Mandelbrot `compute_pixel` (kimi variant) at
`max_iter = 100`: `(0,0)` returns exactly `100`, `(-1,0)` returns exactly
`100`, and `(2,0)` returns the smooth value `3 − log₂(log₂ 6)`, which lies
strictly between `1` and `2` (not `1`); the opus integer-valued `calculate`
returns `2` at `(2,0)` (escape at the third top-of-loop check, since the
escape test is strict and `|z| = 2` does not escape). -/
theorem mandelbrot_reference_points :
    Mandelbrot.compute_pixel 0 0 100 = 100 ∧
    Mandelbrot.compute_pixel (-1) 0 100 = 100 ∧
    Mandelbrot.compute_pixel 2 0 100
      = 3 - Real.log (Real.log 6 / Real.log 2) / Real.log 2 ∧
    1 < Mandelbrot.compute_pixel 2 0 100 ∧
    Mandelbrot.compute_pixel 2 0 100 < 2 ∧
    OpusFractals.MandelbrotFractal.calculate 2 0 100 = 2 := by
  have hb := Mandelbrot.smooth_exponent_two_zero_bounds
  refine ⟨?_, ?_, Mandelbrot.compute_pixel_two_eval, ?_, ?_,
    OpusFractals.calculate_two_eval⟩
  · rw [Mandelbrot.compute_pixel_origin]
    norm_num
  · rw [Mandelbrot.compute_pixel_neg_one]
    norm_num
  · rw [Mandelbrot.compute_pixel_two_eval]
    linarith [hb.2]
  · rw [Mandelbrot.compute_pixel_two_eval]
    linarith [hb.1]

/-- C6 counterexample: `compute_pixel` can return a negative value.  At
`(2^400, 0)` with `max_iter = 100` the point escapes at the second check with
`|z| = 2^400`, and the smooth-coloring correction
`log₂(log₂ 2^400) = log₂ 400 > 8` exceeds `i + 1 = 2`, so the returned value
`2 − log₂ 400` is negative — outside the claimed interval `[0, max_iter]`. -/
theorem mandelbrot_negative_value_counterexample :
    Mandelbrot.compute_pixel (2 ^ 400) 0 100 < 0 := by
  have h2 : (0 : ℝ) < Real.log 2 := Real.log_pos (by norm_num)
  have hc : (⟨((2 : ℝ) ^ 400), (0 : ℝ)⟩ : ℂ) = Complex.ofReal ((2 : ℝ) ^ 400) := by
    refine Complex.ext ?_ ?_
    · rw [Complex.ofReal_re]
    · rw [Complex.ofReal_im]
  unfold Mandelbrot.compute_pixel
  rw [hc]
  rw [show (100 : ℕ) = 99 + 1 from rfl, Mandelbrot.mandel_loop_succ, if_neg (by simp)]
  rw [show ((0 : ℂ) * 0 + Complex.ofReal ((2 : ℝ) ^ 400)) = Complex.ofReal ((2 : ℝ) ^ 400) from by ring]
  have habs : Complex.abs (Complex.ofReal ((2 : ℝ) ^ 400)) = (2 : ℝ) ^ 400 := by
    rw [Complex.abs_ofReal, abs_of_nonneg (by positivity)]
  have hgt : 2 < Complex.abs (Complex.ofReal ((2 : ℝ) ^ 400)) := by
    rw [habs]
    calc (2 : ℝ) = 2 ^ (1 : ℕ) := by norm_num
      _ < 2 ^ (400 : ℕ) := by
          apply pow_lt_pow_right₀ (by norm_num) (by norm_num)
  rw [show (99 : ℕ) = 98 + 1 from rfl, Mandelbrot.mandel_loop_succ, if_pos hgt, habs]
  rw [Real.log_pow]
  rw [show ((400 : ℕ) : ℝ) * Real.log 2 / Real.log 2 = 400 * (Real.log 2 / Real.log 2) from by ring,
    div_self (ne_of_gt h2)]
  have hlog4 : Real.log 4 = 2 * Real.log 2 := by
    rw [show (4 : ℝ) = 2 ^ (2 : ℕ) by norm_num, Real.log_pow]
    norm_num
  have h4400 : Real.log 4 < Real.log (400 * 1) := by
    apply Real.log_lt_log (by norm_num)
    norm_num
  have : 2 < Real.log (400 * 1) / Real.log 2 := by
    rw [lt_div_iff h2]
    linarith
  push_cast
  linarith [this]

/-- C6 (amended): for every input point and every `max_iter`, the Mandelbrot
`compute_pixel` returns a value at most `max_iter`; the claimed lower bound
`0` does not hold (see the counterexample), because the smooth-coloring
correction can exceed `i + 1` when the orbit escapes with a very large
magnitude. -/
theorem mandelbrot_compute_pixel_le_max_iter (x y : ℝ) (maxIter : ℕ) :
    Mandelbrot.compute_pixel x y maxIter ≤ maxIter :=
  Mandelbrot.loop_le_maxIter ⟨x, y⟩ maxIter maxIter 0 (by omega) 0

namespace Newton

/-- First of the three roots of `z³ - 1` listed in `fractals/newton.py`. -/
noncomputable def root1 : ℂ := ⟨1, 0⟩

/-- Second root, `complex(-0.5, sqrt(3)/2)`. -/
noncomputable def root2 : ℂ := ⟨-(1/2), Real.sqrt 3 / 2⟩

/-- Third root, `complex(-0.5, -sqrt(3)/2)`. -/
noncomputable def root3 : ℂ := ⟨-(1/2), -(Real.sqrt 3 / 2)⟩

/-- The iteration loop of `NewtonFractal.compute_pixel` from
`fractals/newton.py`.  At the top of each iteration: if `abs(z) < 1e-10` the
function returns `max_iter` (the near-zero point is treated as bounded, and
the Newton update is never evaluated there); otherwise the update
`z_new = z - (z³ - 1)/(3 z²)` runs, the three roots are tested with
tolerance `1e-6` (returning `i + j·max_iter/3` for root index `j`), and the
loop continues with `z_new`. -/
noncomputable def loop (maxIter : ℕ) : ℕ → ℕ → ℂ → ℝ
  | 0, _, _ => maxIter
  | fuel + 1, i, z =>
    if Complex.abs z < 1e-10 then (maxIter : ℝ)
    else
      let zNew := z - (z ^ 3 - 1) / (3 * z ^ 2)
      if Complex.abs (zNew - root1) < 1e-6 then (i : ℝ) + 0 * (maxIter : ℝ) / 3
      else if Complex.abs (zNew - root2) < 1e-6 then (i : ℝ) + 1 * (maxIter : ℝ) / 3
      else if Complex.abs (zNew - root3) < 1e-6 then (i : ℝ) + 2 * (maxIter : ℝ) / 3
      else loop maxIter fuel (i + 1) zNew

/-- `NewtonFractal.compute_pixel(x, y, max_iter)`: start at `z = x + yi`. -/
noncomputable def compute_pixel (x y : ℝ) (maxIter : ℕ) : ℝ :=
  loop maxIter maxIter 0 ⟨x, y⟩

theorem newton_loop_succ (maxIter fuel i : ℕ) (z : ℂ) :
    loop maxIter (fuel + 1) i z
      = if Complex.abs z < 1e-10 then (maxIter : ℝ)
        else
          let zNew := z - (z ^ 3 - 1) / (3 * z ^ 2)
          if Complex.abs (zNew - root1) < 1e-6 then (i : ℝ) + 0 * (maxIter : ℝ) / 3
          else if Complex.abs (zNew - root2) < 1e-6 then (i : ℝ) + 1 * (maxIter : ℝ) / 3
          else if Complex.abs (zNew - root3) < 1e-6 then (i : ℝ) + 2 * (maxIter : ℝ) / 3
          else loop maxIter fuel (i + 1) zNew := rfl

end Newton

/-- C10: the Newton `compute_pixel` never divides by zero: whenever an
iteration starts with `|z| < 1e-10` the loop immediately returns `max_iter`
(at the first iteration this makes `compute_pixel` return `max_iter`), and in
the complementary case `|z| ≥ 1e-10`, where alone the update
`z - (z³-1)/(3z²)` is evaluated, the divisor `3z²` is nonzero. -/
theorem newton_division_guarded (maxIter fuel i : ℕ) (x y : ℝ) (z : ℂ) :
    (Complex.abs z < 1e-10 → Newton.loop maxIter (fuel + 1) i z = maxIter) ∧
    (Complex.abs ⟨x, y⟩ < 1e-10 → Newton.compute_pixel x y maxIter = maxIter) ∧
    (1e-10 ≤ Complex.abs z → (3 : ℂ) * z ^ 2 ≠ 0) := by
  refine ⟨?_, ?_, ?_⟩
  · intro hz
    rw [Newton.newton_loop_succ, if_pos hz]
  · intro hz
    unfold Newton.compute_pixel
    cases maxIter with
    | zero => rfl
    | succ n => rw [Newton.newton_loop_succ, if_pos hz]
  · intro hz
    have hzne : z ≠ 0 := by
      intro h0
      rw [h0, map_zero] at hz
      norm_num at hz
    exact mul_ne_zero (by norm_num) (pow_ne_zero 2 hzne)

/-- Witness for C10: the origin triggers the guard (`|0| < 1e-10`) and
`compute_pixel 0 0 60 = 60`; at `z = 1` (which passes the guard) the divisor
`3z²` is nonzero. -/
theorem newton_division_guarded_witness :
    Complex.abs (⟨(0 : ℝ), (0 : ℝ)⟩ : ℂ) < 1e-10 ∧
    Newton.compute_pixel 0 0 60 = 60 ∧
    (3 : ℂ) * (1 : ℂ) ^ 2 ≠ 0 := by
  have habs : Complex.abs (⟨(0 : ℝ), (0 : ℝ)⟩ : ℂ) < 1e-10 := by
    rw [show (⟨(0 : ℝ), (0 : ℝ)⟩ : ℂ) = 0 from rfl, map_zero]
    norm_num
  have h1 : (1e-10 : ℝ) ≤ Complex.abs (1 : ℂ) := by
    rw [map_one]
    norm_num
  exact ⟨habs, (newton_division_guarded 60 0 0 0 0 1).2.1 habs,
    (newton_division_guarded 60 0 0 0 0 1).2.2 h1⟩

namespace OpusFractals

/-- The fractal classes registered with `FractalFactory.register` at the
bottom of `fractal_generator/fractals.py` (opus variant). -/
inductive FractalType
  | mandelbrot
  | julia
  | burningShip
  | tricorn
  | celtic
  | buffalo
  | perpendicular
  | lambdaFractal
  | multibrot
  | phoenix
  | newton
  | sine
  | orbitTrap
  | buddhabrot
  deriving DecidableEq

/-- The `name` property (display name) of each registered class. -/
def FractalType.displayName : FractalType → String
  | .mandelbrot => "Mandelbrot"
  | .julia => "Julia"
  | .burningShip => "Burning Ship"
  | .tricorn => "Tricorn"
  | .celtic => "Celtic"
  | .buffalo => "Buffalo"
  | .perpendicular => "Perpendicular"
  | .lambdaFractal => "Lambda"
  | .multibrot => "Multibrot"
  | .phoenix => "Phoenix"
  | .newton => "Newton z³-1"
  | .sine => "Sine"
  | .orbitTrap => "Orbit Trap"
  | .buddhabrot => "Buddhabrot"

/-- `FractalFactory._registry` after the `FractalFactory.register(...)` calls
at the bottom of `fractal_generator/fractals.py`, in registration order. -/
def factoryRegistry : List (String × FractalType) := [
  ("mandelbrot", .mandelbrot),
  ("julia", .julia),
  ("burning_ship", .burningShip),
  ("tricorn", .tricorn),
  ("celtic", .celtic),
  ("buffalo", .buffalo),
  ("perpendicular", .perpendicular),
  ("lambda", .lambdaFractal),
  ("multibrot", .multibrot),
  ("phoenix", .phoenix),
  ("newton", .newton),
  ("sine", .sine),
  ("orbit_trap", .orbitTrap),
  ("buddhabrot", .buddhabrot)]

/-- `FractalFactory.create` from `fractal_generator/fractals.py` (opus
variant): if the key is not registered, the registry is scanned in
registration order for a class whose display `name` matches; if that also
fails, the function returns `None` — no exception is raised.  On success an
instance of the resolved class is created (and cached in `_instances`); the
instance is modelled by its class, since only success versus miss matters
here. -/
def FractalFactory.create (name : String) : Option FractalType :=
  match factoryRegistry.lookup name with
  | some c => some c
  | none =>
    match factoryRegistry.find? (fun kv => kv.2.displayName == name) with
    | some kv => some kv.2
    | none => none

end OpusFractals

/-- C5 counterexample: for a key that is neither a registered key nor a
display name, the opus `FractalFactory.create` does not produce an explicit
error to the caller: it merely returns `None` — an optional miss, which its
own caller `_calculate_chunk_numpy` silently converts into zero data (see
C7) — refuting the claim for this cited source (the kimi `create`, by
contrast, raises `ValueError`). -/
theorem opus_create_unknown_returns_none_counterexample :
    OpusFractals.FractalFactory.create "does_not_exist" = none := by
  rfl

/-- C5 (amended): the kimi `FractalRegistry.create` is explicit — every
unregistered key yields a raised `ValueError` and every registered key
succeeds; the opus `FractalFactory.create` succeeds for every registered key
(and for display-name matches) but returns `None` — not an explicit error —
for a key that is neither a registered key nor a display name. -/
theorem registry_create_kimi_explicit_opus_optional (name : String) :
    (FractalRegistry.get name = none →
      FractalRegistry.create name = .error ("Unknown fractal: " ++ name)) ∧
    (∀ c, FractalRegistry.get name = some c →
      FractalRegistry.create name = .ok c) ∧
    (∀ c, OpusFractals.factoryRegistry.lookup name = some c →
      OpusFractals.FractalFactory.create name = some c) ∧
    (OpusFractals.factoryRegistry.lookup name = none →
      (∀ kv ∈ OpusFractals.factoryRegistry, kv.2.displayName ≠ name) →
      OpusFractals.FractalFactory.create name = none) := by
  refine ⟨?_, ?_, ?_, ?_⟩
  · intro h
    unfold FractalRegistry.create
    rw [h]
  · intro c h
    unfold FractalRegistry.create
    rw [h]
  · intro c h
    unfold OpusFractals.FractalFactory.create
    rw [h]
  · intro h hdisp
    unfold OpusFractals.FractalFactory.create
    rw [h]
    have hfind : OpusFractals.factoryRegistry.find?
        (fun kv => kv.2.displayName == name) = none := by
      rw [List.find?_eq_none]
      intro kv hkv
      simpa using hdisp kv hkv
    rw [hfind]

/-- Witness for C5 (amended): the registered key `mandelbrot` (kimi) raises
nothing and succeeds; `does_not_exist` raises in kimi; `julia` succeeds in
opus; `does_not_exist` returns `None` in opus. -/
theorem registry_create_kimi_explicit_opus_optional_witness :
    FractalRegistry.create "mandelbrot" = .ok .mandelbrot ∧
    FractalRegistry.create "does_not_exist"
      = .error ("Unknown fractal: " ++ "does_not_exist") ∧
    OpusFractals.FractalFactory.create "julia" = some .julia ∧
    OpusFractals.FractalFactory.create "does_not_exist" = none :=
  ⟨(registry_create_kimi_explicit_opus_optional "mandelbrot").2.1 .mandelbrot rfl,
   (registry_create_kimi_explicit_opus_optional "does_not_exist").1 rfl,
   (registry_create_kimi_explicit_opus_optional "julia").2.2.1 .julia rfl,
   (registry_create_kimi_explicit_opus_optional "does_not_exist").2.2.2 rfl
     (by decide)⟩

/-- `ZoomHistory` from `fractal_generator/state.py` (opus variant): a stack
of past states (`_history`, for undo) and a stack of future states
(`_future`, for redo); the current state lives outside the structure, with
the caller. -/
structure ZoomHistory (σ : Type) where
  hist : List σ
  future : List σ
  deriving DecidableEq

/-- `ZoomHistory.MAX_HISTORY_SIZE` from `fractal_generator/state.py`. -/
def ZoomHistory.maxHistorySize : ℕ := 50

/-- `ZoomHistory.push` from `fractal_generator/state.py`: unconditionally
appends the state (there is no duplicate check), clears the redo stack, and
evicts the oldest entry once the bound is exceeded. -/
def ZoomHistory.push {σ : Type} (h : ZoomHistory σ) (state : σ) : ZoomHistory σ :=
  let hist1 := h.hist ++ [state]
  ⟨if ZoomHistory.maxHistorySize < hist1.length then hist1.drop 1 else hist1, []⟩

/-- C9 counterexample: the opus `ZoomHistory.push` has no duplicate
suppression: starting from history `[0]` with redo stack `[1]`, pushing `0`
— equal to the state at the top of the history — appends a consecutive
duplicate entry and clears the redo stack; contents, length and redo state
all change, so the push is not a no-op. -/
theorem opus_push_duplicate_not_noop_counterexample :
    ((⟨[0], [1]⟩ : ZoomHistory ℕ).push 0) = ⟨[0, 0], []⟩ ∧
    ((⟨[0], [1]⟩ : ZoomHistory ℕ).push 0) ≠ ⟨[0], [1]⟩ := by
  decide

/-- C9 (amended): in the kimi explorer history, pushing a state equal to the
one at the cursor is a no-op — contents, length and cursor all unchanged;
the opus `ZoomHistory.push`, by contrast, performs no duplicate suppression:
below the capacity bound it always appends the pushed state — in particular
one equal to the current top, creating a consecutive duplicate — and clears
the redo stack. -/
theorem push_duplicate_noop_kimi_not_opus {σ : Type} [DecidableEq σ]
    (h : ViewHistory σ) (zh : ZoomHistory σ) (s t : σ) (maxSize : ℕ)
    (h0 : 0 ≤ h.idx) (h1 : h.idx < (h.hist.length : ℤ))
    (h2 : h.hist[h.idx.toNat]? = some s)
    (hzlen : zh.hist.length < ZoomHistory.maxHistorySize) :
    h.push maxSize s = h ∧ zh.push t = ⟨zh.hist ++ [t], []⟩ := by
  constructor
  · have hne : h.hist ≠ [] := by
      intro hnil
      rw [hnil] at h1
      simp at h1
      omega
    unfold ViewHistory.push
    rw [if_pos ⟨hne, h0, h1, h2⟩]
  · have hcond : ¬ ZoomHistory.maxHistorySize < (zh.hist ++ [t]).length := by
      rw [List.length_append]
      simp only [List.length_cons, List.length_nil]
      omega
    show (⟨if ZoomHistory.maxHistorySize < (zh.hist ++ [t]).length
        then (zh.hist ++ [t]).drop 1 else zh.hist ++ [t], []⟩ : ZoomHistory σ)
      = ⟨zh.hist ++ [t], []⟩
    rw [if_neg hcond]

/-- Witness for C9 (amended): the kimi history `⟨[5, 7], 0⟩` absorbs a push
of `5` (the state at its cursor); the opus history `⟨[3], [9]⟩` appends a
push of `3` (the state at its top) as a consecutive duplicate and clears the
redo stack. -/
theorem push_duplicate_noop_kimi_not_opus_witness :
    (⟨[5, 7], 0⟩ : ViewHistory ℕ).push MAX_HISTORY_SIZE 5 = ⟨[5, 7], 0⟩ ∧
    (⟨[3], [9]⟩ : ZoomHistory ℕ).push 3 = ⟨[3, 3], []⟩ :=
  push_duplicate_noop_kimi_not_opus ⟨[5, 7], 0⟩ ⟨[3], [9]⟩ 5 3 MAX_HISTORY_SIZE
    (by decide) (by decide) (by decide) (by decide)

end GenFractals
